import Mathlib

/-!
Shallow embedding of the Regional Agent Data Service (RADS) core: the
configuration-model mutators of handler.go (listeners, backends, ingress
rules, HTTP redirect rules, TLS certificates), the orphan GC, the shared
domain validation helpers, and the reply-publisher fetch of the manager.

Conventions of the embedding:
  - the local SQLite store is modelled as Lean lists of rows; a row lookup
    by primary key (gorm First on `id = ?`) is `List.find?` on the list,
    gorm Create appends at the end, gorm Save replaces the rows whose
    primary key matches;
  - Go strings are Lean `String`; byte-wise Go string comparison is
    modelled by code-point comparison on `String.data` (UTF-8 order agrees
    with code-point order);
  - Go `int` fields are Lean `Int`; `time.Time` values are abstracted as
    `Nat` instants;
  - calls into external libraries that are not part of the repository
    (x509 parsing, the idna lookup profile, the datastore driver) are
    modelled by oracle parameters or by restricted models documented at
    their definition.
-/

/-- Byte-wise (here: code-point-wise) lexicographic strict order on the
character lists underlying Go strings; this is the order used by
`sort.Strings` and by Go string comparison. -/
def strLtData : List Char → List Char → Bool
  | [], [] => false
  | [], _ :: _ => true
  | _ :: _, [] => false
  | a :: as, b :: bs =>
    if a.toNat < b.toNat then true
    else if b.toNat < a.toNat then false
    else strLtData as bs

/-- Boolean `a <= b` on Go strings, as used by `sort.Strings`. -/
def strLeGo (a b : String) : Bool := !(strLtData b.data a.data)

/-- Propositional form of `strLeGo`. -/
def strLe (a b : String) : Prop := strLeGo a b = true

instance : DecidableRel strLe :=
  fun a b => inferInstanceAs (Decidable (strLeGo a b = true))

instance {ε α : Type} [DecidableEq ε] [DecidableEq α] : DecidableEq (Except ε α) := fun a b =>
  match a, b with
  | Except.ok x, Except.ok y =>
    if h : x = y then isTrue (by rw [h]) else isFalse (fun hh => h (Except.ok.inj hh))
  | Except.error x, Except.error y =>
    if h : x = y then isTrue (by rw [h]) else isFalse (fun hh => h (Except.error.inj hh))
  | Except.ok _, Except.error _ => isFalse (fun hh => Except.noConfusion hh)
  | Except.error _, Except.ok _ => isFalse (fun hh => Except.noConfusion hh)

/-- Models `slices.Sort` / `sort.Strings`: the ascending lexicographic sort
of a string slice. Insertion sort computes the same result as any sorting
algorithm for this total antisymmetric order. -/
def sortStrings (l : List String) : List String := List.insertionSort strLe l

/-- Models `slices.Compact`: removes adjacent duplicate elements. -/
def compactAdj : List String → List String
  | [] => []
  | [a] => [a]
  | a :: b :: rest => if a = b then compactAdj (b :: rest) else a :: compactAdj (b :: rest)

/-- Embeds `uniqueSortedStrings` (utils): `slices.Sort` followed by
`slices.Compact`. -/
def uniqueSortedStrings (s : List String) : List String := compactAdj (sortStrings s)

/-- Models the escaping performed by `encoding/json` on a string character,
restricted to the quote and backslash escapes; the control-character and
HTML escapes of the Go encoder are never exercised by this development. -/
def jsonEscapeChar (c : Char) : String :=
  if c = '"' then "\\\"" else if c = '\\' then "\\\\" else String.singleton c

/-- Renders one JSON string literal. -/
def jsonQuote (s : String) : String :=
  "\"" ++ String.join (s.data.map jsonEscapeChar) ++ "\""

/-- Joins already-rendered JSON values with commas. -/
def joinComma : List String → String
  | [] => ""
  | [s] => s
  | s :: rest => s ++ "," ++ joinComma rest

/-- Renders a JSON array of strings, as `encoding/json` does for a
`[]string` value. -/
def jsonEncodeStringArray (l : List String) : String :=
  "[" ++ joinComma (l.map jsonQuote) ++ "]"

/-- Embeds `StringList.Value` (models file): the driver value stored in the
`hosts` (and CIDR) text columns. An empty or nil slice is stored as `[]`;
otherwise a copy of the slice is sorted with `sort.Strings` and marshalled
as a JSON array. -/
def stringListValue (s : List String) : String :=
  if s.length = 0 then "[]"
  else jsonEncodeStringArray (sortStrings s)

/-- Protocol of a listener, `ProtocolType` in the source (`http` or `tcp`). -/
inductive ProtocolType where
  | http
  | tcp
deriving DecidableEq

/-- Rendering of a `ProtocolType` value, as the `%s` verb of fmt prints it. -/
def protocolString : ProtocolType → String
  | .http => "http"
  | .tcp => "tcp"

/-- Backend resolver kind, `BackendResolverType` in the source. -/
inductive BackendResolverType where
  | static
  | dns
deriving DecidableEq

/-- Row of the `Listener` table (models.go). -/
structure Listener where
  id : String
  protocol : ProtocolType
  ip : String
  port : Int
  isTLS : Bool
deriving DecidableEq

/-- Row of the `Backend` table (models.go). The `hostsText` field holds the
persisted `hosts` text column, i.e. the JSON produced by
`StringList.Value`. -/
structure Backend where
  id : String
  resolverType : BackendResolverType
  dnsResolver : String
  hostsText : String
  port : Int
  isTLS : Bool
  sniDomain : String
deriving DecidableEq

/-- Row of the `IngressRule` table (models.go). -/
structure IngressRule where
  id : String
  priority : Int
  listenerID : String
  backendID : String
  domain : String
  routePrefix : String
  allowedCIDRs : List String
  deniedCIDRs : List String
deriving DecidableEq

/-- Row of the `HTTPRedirectRule` table (models.go). -/
structure HTTPRedirectRule where
  id : String
  priority : Int
  listenerID : String
  domain : String
  pathPrefix : String
  isHttpsRedirect : Bool
  schemeRedirect : String
  hostRedirect : String
  pathRedirect : String
  statusCode : Int
deriving DecidableEq

/-- Row of the `TLSCertificate` table (models.go). `expiresAt` abstracts the
`time.Time` expiry as an instant. -/
structure TLSCertificate where
  id : String
  domain : String
  isWildcard : Bool
  cert : String
  key : String
  expiresAt : Nat
deriving DecidableEq

/-- Row of the `Message` pipeline ledger (models.go). Timestamps are
abstract instants; pointer-typed times are `Option Nat`. -/
structure Message where
  id : Nat
  event : String
  requestID : String
  requestPayload : String
  responsePayload : String
  errorMessage : String
  success : Bool
  processed : Bool
  replied : Bool
  requestedAt : Option Nat
  queuedAt : Option Nat
  processedAt : Option Nat
deriving DecidableEq

/-- Embeds `getTLSCertificateID` (handler.go): the wildcard flag prefixes
the domain with a star and dot. -/
def getTLSCertificateID (domain : String) (isWildCard : Bool) : String :=
  if isWildCard then "*." ++ domain else domain

/-- Embeds `isTLSCertificateExist` (handler.go): a primary-key lookup, with
`gorm.ErrRecordNotFound` mapped to `false`. -/
def isTLSCertificateExist (db : List TLSCertificate) (id : String) : Bool :=
  (db.find? (fun c => c.id == id)).isSome

/-- Embeds `getListenerID` (handler.go): `fmt.Sprintf("%s:%d", bindIP, port)`. -/
def getListenerID (bindIP : String) (port : Int) : String :=
  bindIP ++ ":" ++ toString port

/-- Primary-key lookup on the listener table, as `isListenerExist` and
`getListenerByID` (handler.go) perform it. -/
def findListenerByID (db : List Listener) (id : String) : Option Listener :=
  db.find? (fun l => l.id == id)

/-- Closing sentence of every listener-conflict error raised by
`upsertListener`. -/
def removalInstruction : String :=
  "remove existing ingress / redirect rules to release the listener"

/-- Embeds `upsertListener` (handler.go). When a listener with the derived
id exists, a differing protocol or differing TLS flag is a conflict: an
error is returned and nothing is written. When no listener exists, a row is
created. The returned pair is the Go `(listener, error)` result together
with the store after the call. -/
def upsertListener (db : List Listener) (bindIP : String) (port : Int)
    (protocol : ProtocolType) (isTLS : Bool) :
    Except String Listener × List Listener :=
  let id := getListenerID bindIP port
  match findListenerByID db id with
  | some listener =>
    if listener.protocol ≠ protocol then
      (Except.error ("listener registered on " ++ id ++ " is using "
        ++ protocolString listener.protocol
        ++ " protocol, but currently requesting the same listener for "
        ++ protocolString protocol ++ " protocol. " ++ removalInstruction), db)
    else if listener.isTLS ≠ isTLS then
      if listener.isTLS then
        (Except.error ("listener registered on " ++ id
          ++ " is using TLS, but currently requesting the same listener for non-TLS. "
          ++ removalInstruction), db)
      else
        (Except.error ("listener registered on " ++ id
          ++ " is using non-TLS, but currently requesting the same listener for TLS. "
          ++ removalInstruction), db)
    else
      (Except.ok listener, db)
  | none =>
    let listener : Listener :=
      { id := id, protocol := protocol, ip := bindIP, port := port, isTLS := isTLS }
    (Except.ok listener, db ++ [listener])

/-- Boolean form of the `WHERE` clause of `findBackend` (handler.go): all
six structural columns are compared, the hosts column against the
serialized sorted value. -/
def backendMatches (b : Backend) (resolverType : BackendResolverType)
    (dnsResolver hostsValue : String) (port : Int) (isTLS : Bool)
    (sniDomain : String) : Bool :=
  decide (b.resolverType = resolverType) && decide (b.dnsResolver = dnsResolver)
    && decide (b.hostsText = hostsValue) && decide (b.port = port)
    && decide (b.isTLS = isTLS) && decide (b.sniDomain = sniDomain)

/-- Embeds `findBackend` (handler.go): first row whose structural tuple
matches, with the hosts slice serialized through `StringList.Value`. -/
def findBackend (db : List Backend) (resolverType : BackendResolverType)
    (dnsResolver : String) (hosts : List String) (port : Int) (isTLS : Bool)
    (sniDomain : String) : Option Backend :=
  db.find? (fun b =>
    backendMatches b resolverType dnsResolver (stringListValue hosts) port isTLS sniDomain)

/-- Embeds `upsertBackend` (handler.go). An existing structurally equal row
is returned unchanged; otherwise a row is created under a fresh random
UUID, supplied here as the `freshID` parameter. -/
def upsertBackend (db : List Backend) (resolverType : BackendResolverType)
    (dnsResolver : String) (hosts : List String) (port : Int) (isTLS : Bool)
    (sniDomain : String) (freshID : String) : Backend × List Backend :=
  match findBackend db resolverType dnsResolver hosts port isTLS sniDomain with
  | some backend => (backend, db)
  | none =>
    let backend : Backend :=
      { id := freshID, resolverType := resolverType, dnsResolver := dnsResolver,
        hostsText := stringListValue hosts, port := port, isTLS := isTLS,
        sniDomain := sniDomain }
    (backend, db ++ [backend])

/-- Embeds `getIngressRuleID` (handler.go). -/
def getIngressRuleID (protocol : ProtocolType) (listenerID domain routePrefix : String) :
    String :=
  match protocol with
  | .tcp => "tcp:" ++ listenerID
  | .http => "http:" ++ listenerID ++ ":" ++ domain ++ ":" ++ routePrefix

/-- Embeds `deleteIngressRule` (handler.go): deletes the rows whose id is
the derived id. -/
def deleteIngressRule (db : List IngressRule) (protocol : ProtocolType)
    (listenerID domain routePrefix : String) : List IngressRule :=
  let id := getIngressRuleID protocol listenerID domain routePrefix
  db.filter (fun r => decide (r.id ≠ id))

/-- Embeds `getHTTPRedirectRuleID` (handler.go). The source builds the id
with `fmt.Sprintf("http:%s:%s:%s:%d", listenerID, domain, routePrefix,
redirectType)`: the final verb is `%d` while `redirectType` is a string,
and the fmt package renders a value under a mismatched verb as
`%!d(string=<value>)`, so that text — not the bare kind — ends the id. -/
def getHTTPRedirectRuleID (listenerID domain routePrefix : String)
    (isHTTPSRedirect : Bool) : String :=
  let redirectType := if isHTTPSRedirect then "https" else "other"
  "http:" ++ listenerID ++ ":" ++ domain ++ ":" ++ routePrefix ++ ":"
    ++ "%!d(string=" ++ redirectType ++ ")"

/-- Embeds `findHTTPRedirectRule` (handler.go): primary-key lookup on the
derived id. -/
def findHTTPRedirectRule (db : List HTTPRedirectRule)
    (listenerID domain routePrefix : String) (isHTTPSRedirect : Bool) :
    Option HTTPRedirectRule :=
  let id := getHTTPRedirectRuleID listenerID domain routePrefix isHTTPSRedirect
  db.find? (fun r => r.id == id)

/-- Embeds `upsertHTTPRedirectRule` (handler.go). A zero status code
defaults to 301. On an existing row the source assigns only
`IsHttpsRedirect`, `SchemeRedirect`, `HostRedirect`, `PathRedirect` and
`StatusCode`; the stored `Priority` is left as it was. On a missing row all
fields, including `Priority`, are set on the created row. -/
def upsertHTTPRedirectRule (db : List HTTPRedirectRule)
    (listenerID domain routePrefix : String) (isHttpsRedirect : Bool)
    (schemeRedirect hostRedirect pathRedirect : String)
    (statusCode priority : Int) : HTTPRedirectRule × List HTTPRedirectRule :=
  let found := findHTTPRedirectRule db listenerID domain routePrefix isHttpsRedirect
  let statusCode := if statusCode = 0 then 301 else statusCode
  match found with
  | some redirectRule =>
    let updated : HTTPRedirectRule :=
      { redirectRule with
        isHttpsRedirect := isHttpsRedirect,
        schemeRedirect := schemeRedirect,
        hostRedirect := hostRedirect,
        pathRedirect := pathRedirect,
        statusCode := statusCode }
    (updated, db.map (fun r => if r.id = updated.id then updated else r))
  | none =>
    let rule : HTTPRedirectRule :=
      { id := getHTTPRedirectRuleID listenerID domain routePrefix isHttpsRedirect,
        priority := priority,
        listenerID := listenerID,
        domain := domain,
        pathPrefix := routePrefix,
        isHttpsRedirect := isHttpsRedirect,
        schemeRedirect := schemeRedirect,
        hostRedirect := hostRedirect,
        pathRedirect := pathRedirect,
        statusCode := statusCode }
    (rule, db ++ [rule])

/-- Embeds `deleteHTTPRedirectRule` (handler.go). -/
def deleteHTTPRedirectRule (db : List HTTPRedirectRule)
    (listenerID domain routePrefix : String) (isHTTPSRedirect : Bool) :
    List HTTPRedirectRule :=
  let id := getHTTPRedirectRuleID listenerID domain routePrefix isHTTPSRedirect
  db.filter (fun r => decide (r.id ≠ id))

/-- Combined configuration tables touched by the processor batch and its
orphan GC. -/
structure ConfigState where
  listeners : List Listener
  backends : List Backend
  ingressRules : List IngressRule
  httpRedirectRules : List HTTPRedirectRule
deriving DecidableEq

/-- Embeds `cleanupUnusedBackendsAndListeners` (handler.go): collect the
listener ids referenced by ingress and redirect rules and the backend ids
referenced by ingress rules, dedupe them, and delete the unreferenced
listener and backend rows — except that an empty reference set performs no
deletion at all (the `len(...) > 0` guards in the source). -/
def cleanupUnusedBackendsAndListeners (st : ConfigState) : ConfigState :=
  let allListenerIDs := uniqueSortedStrings
    (st.ingressRules.map (fun r => r.listenerID)
      ++ st.httpRedirectRules.map (fun r => r.listenerID))
  let allBackendIDs := uniqueSortedStrings (st.ingressRules.map (fun r => r.backendID))
  let backends :=
    if allBackendIDs.length > 0 then
      st.backends.filter (fun b => decide (b.id ∈ allBackendIDs))
    else st.backends
  let listeners :=
    if allListenerIDs.length > 0 then
      st.listeners.filter (fun l => decide (l.id ∈ allListenerIDs))
    else st.listeners
  { st with backends := backends, listeners := listeners }

/-- A listener is referenced when some ingress rule or some redirect rule
names its id. -/
def ListenerReferenced (st : ConfigState) (l : Listener) : Prop :=
  (∃ r ∈ st.ingressRules, r.listenerID = l.id)
    ∨ (∃ r ∈ st.httpRedirectRules, r.listenerID = l.id)

/-- A backend is referenced when some ingress rule names its id. -/
def BackendReferenced (st : ConfigState) (b : Backend) : Prop :=
  ∃ r ∈ st.ingressRules, r.backendID = b.id

instance (st : ConfigState) (l : Listener) : Decidable (ListenerReferenced st l) := by
  unfold ListenerReferenced
  infer_instance

instance (st : ConfigState) (b : Backend) : Decidable (BackendReferenced st b) := by
  unfold BackendReferenced
  infer_instance

/-- A hosts column value in sorted shape: the JSON rendering of a list that
is ascending in the Go string order. -/
def IsSortedHostsText (s : String) : Prop :=
  ∃ h : List String, List.Sorted strLe h ∧ s = jsonEncodeStringArray h

/-- Structural identity of a backend row: the six columns compared by
`findBackend`. -/
def backendTuple (b : Backend) :
    BackendResolverType × String × String × Int × Bool × String :=
  (b.resolverType, b.dnsResolver, b.hostsText, b.port, b.isTLS, b.sniDomain)

/-- Store invariant of the backend table: every row carries its hosts as a
sorted JSON array, and no two rows share the structural tuple. -/
def BackendStoreOK (db : List Backend) : Prop :=
  (∀ b ∈ db, IsSortedHostsText b.hostsText)
    ∧ db.Pairwise (fun a b => backendTuple a ≠ backendTuple b)

/-- Lowercase ASCII letter or digit. -/
def isLowerAlphaNum (c : Char) : Bool :=
  (('a' ≤ c) && (c ≤ 'z')) || (('0' ≤ c) && (c ≤ '9'))

/-- ASCII lowercase mapping of one character. -/
def charLowerASCII (c : Char) : Char :=
  if ('A' ≤ c) && (c ≤ 'Z') then Char.ofNat (c.toNat + 32) else c

/-- Models `idna.Lookup.ToASCII` of golang.org/x/net/idna for the ASCII
inputs this development evaluates: the lookup mapping lowercases ASCII
letters, and the strict domain-name check of the profile
(`StrictDomainName`, RFC 1034 lookup restrictions) rejects any rune other
than a letter, a digit, a hyphen, or the label separator — in particular
the star. Punycode conversion of non-ASCII input and the remaining profile
checks are outside the evaluation points of this development. -/
def idnaLookupToASCII (s : String) : Except String String :=
  let mapped := s.data.map charLowerASCII
  if mapped.all (fun c => isLowerAlphaNum c || c = '-' || c = '.') then
    Except.ok (String.mk mapped)
  else
    Except.error "idna: disallowed rune"

/-- Models `strings.Contains(s, "..")`. -/
def hasDoubleDot : List Char → Bool
  | '.' :: '.' :: _ => true
  | _ :: rest => hasDoubleDot rest
  | [] => false

/-- Models `strings.Split(s, ".")` for the one-character separator. -/
def splitOnDot : List Char → List (List Char)
  | [] => [[]]
  | '.' :: rest => [] :: splitOnDot rest
  | c :: rest =>
    match splitOnDot rest with
    | [] => [[c]]
    | l :: ls => (c :: l) :: ls

/-- Models the compiled `labelRE` regular expression
`^[a-z0-9](?:[a-z0-9-]{0,61}[a-z0-9])?$`: one alphanumeric character, or an
alphanumeric head, up to 61 alphanumeric-or-hyphen middle characters, and
an alphanumeric tail. -/
def labelREMatch : List Char → Bool
  | [] => false
  | [c] => isLowerAlphaNum c
  | c :: rest =>
    isLowerAlphaNum c && (rest.length ≤ 62)
      && rest.dropLast.all (fun d => isLowerAlphaNum d || d = '-')
      && ((rest.getLast?.map isLowerAlphaNum).getD false)

/-- Per-label loop of `validateDomain` (utils): empty labels, underscores
and labels outside `labelRE` are rejected, in that order. -/
def checkLabels : List (List Char) → Except String Unit
  | [] => Except.ok ()
  | p :: rest =>
    if p.length = 0 then Except.error "empty label"
    else if p.contains '_' then Except.error "underscores are not allowed in labels"
    else if !labelREMatch p then Except.error ("invalid label: " ++ String.mk p)
    else checkLabels rest

/-- Embeds `validateDomain` (utils): IDN-normalize through the lookup
profile, bound the total length by 253, reject doubled, leading or trailing
dots, then check every label. This inner helper has no wildcard handling:
that lives only in `IsValidDomain`. -/
def validateDomain (s : String) : Except String Unit :=
  match idnaLookupToASCII s with
  | Except.error e => Except.error ("invalid IDN: " ++ e)
  | Except.ok ascii =>
    let cs := ascii.data
    if cs.length > 253 then Except.error "domain exceeds 253 characters"
    else if hasDoubleDot cs || (cs.head? == some '.') || (cs.getLast? == some '.') then
      Except.error "labels must be separated by a single dot"
    else checkLabels (splitOnDot cs)

/-- ASCII subset of `unicode.IsSpace`, the class trimmed by
`strings.TrimSpace`. -/
def isSpaceGo (c : Char) : Bool :=
  c = ' ' || c = '\t' || c = '\n' || c = '\x0b' || c = '\x0c' || c = '\r'

/-- Models `strings.TrimSpace` on the character list. -/
def trimSpace (cs : List Char) : List Char :=
  ((cs.dropWhile isSpaceGo).reverse.dropWhile isSpaceGo).reverse

/-- Embeds `IsValidDomain` (utils): trim, reject the empty and the root
domain, strip one trailing dot, accept the bare star and a star-dot prefix
followed by a domain that `validateDomain` accepts, and otherwise defer to
`validateDomain`. -/
def IsValidDomain (s : String) : Except String Unit :=
  let cs := trimSpace s.data
  if cs.length = 0 then Except.error "empty domain"
  else if cs = ['.'] then Except.error "root domain \x27.\x27 is not allowed"
  else
    let cs := if cs.getLast? = some '.' then cs.dropLast else cs
    if cs.length = 0 then Except.error "domain cannot be only a trailing dot"
    else if cs = ['*'] then Except.ok ()
    else
      match cs with
      | '*' :: '.' :: rest =>
        if rest.length = 0 then Except.error "\x27*.\x27 must be followed by a domain"
        else validateDomain (String.mk rest)
      | _ => validateDomain (String.mk cs)

/-- Models `strings.ReplaceAll(s, "\\n", "\n")`: every two-character
backslash-n sequence becomes a newline, scanning left to right without
overlap. -/
def replaceEscapedNewlines : List Char → List Char
  | '\\' :: 'n' :: rest => '\n' :: replaceEscapedNewlines rest
  | c :: rest => c :: replaceEscapedNewlines rest
  | [] => []

/-- Models the trailing-newline fixup of the TLS upsert handler:
`if !strings.HasSuffix(s, "\n") { s += "\n" }`. -/
def ensureTrailingNewline (cs : List Char) : List Char :=
  if cs.getLast? = some '\n' then cs else cs ++ ['\n']

/-- PEM normalization performed on cert and key by the TLS upsert handler. -/
def normalizePEM (s : String) : String :=
  String.mk (ensureTrailingNewline (replaceEscapedNewlines s.data))

/-- JSON value shape used to model marshalled replies structurally. -/
inductive Jval where
  | str : String → Jval
  | bool : Bool → Jval
  | num : Int → Jval
  | time : Nat → Jval
deriving DecidableEq

/-- Models `json.Marshal` on a `TLSCertificate` row as the ordered list of
emitted fields. The struct tags of models.go name the fields `id`,
`domain`, `is_wildcard`, `cert` and `expires_at`; the `Key` field carries
the tag `json:"-"` and is therefore never emitted. -/
def tlsCertificateJSON (c : TLSCertificate) : List (String × Jval) :=
  [("id", Jval.str c.id),
   ("domain", Jval.str c.domain),
   ("is_wildcard", Jval.bool c.isWildcard),
   ("cert", Jval.str c.cert),
   ("expires_at", Jval.time c.expiresAt)]

/-- Request payload of `v1.tls_certificate.upsert` (`TLSCertificateUpsertV1`). -/
structure TLSCertificateUpsertV1 where
  requestID : String
  requestedAt : Nat
  isWildcard : Bool
  domain : String
  cert : String
  key : String
deriving DecidableEq

/-- Embeds the `Process` method of `TLSCertificateUpsertV1` (handler.go).
External effects are oracle parameters: `validateErr` is the outcome of
`ValidateCertAndKey` on the normalized pair, `expiry` the outcome of
`getCertExpiry`, and `writeErr` the error of the `db.Save` or `db.Create`
call. The source assigns that write error to `err` and then immediately
rebinds `err` in `jsonStr, err := json.Marshal(certificateRecord)`, so the
write error is never examined: mirroring the source, the function returns
the marshalled record whatever `writeErr` is, while a failed write leaves
the store unchanged. The result pairs the Go `(json.RawMessage, error)`
value with the store after the call. -/
def TLSCertificateUpsertV1.Process (r : TLSCertificateUpsertV1)
    (db : List TLSCertificate) (validateErr : Option String)
    (expiry : Except String Nat) (writeErr : Option String) :
    Except String (List (String × Jval)) × List TLSCertificate :=
  if r.domain = "" then (Except.error "domain is required", db)
  else if r.cert = "" || r.key = "" then (Except.error "cert and key are required", db)
  else
    let cert := normalizePEM r.cert
    let key := normalizePEM r.key
    let id := getTLSCertificateID r.domain r.isWildcard
    let isExist := isTLSCertificateExist db id
    match validateErr with
    | some e => (Except.error e, db)
    | none =>
      match expiry with
      | Except.error e => (Except.error e, db)
      | Except.ok certExpiry =>
        let certificateRecord : TLSCertificate :=
          { id := id, domain := r.domain, isWildcard := r.isWildcard,
            cert := cert, key := key, expiresAt := certExpiry }
        let db2 :=
          match writeErr with
          | some _ => db
          | none =>
            if isExist then db.map (fun c => if c.id = id then certificateRecord else c)
            else db ++ [certificateRecord]
        (Except.ok (tlsCertificateJSON certificateRecord), db2)

/-- Models the outcome that `processMessage` (handler.go) records on the
Message row from the handler result: on an error, `success` stays false
and the error text is wrapped into `error_message`; otherwise `success`
becomes true with an empty `error_message`. -/
def messageOutcomeOfProcess (res : Except String (List (String × Jval))) :
    Bool × String :=
  match res with
  | Except.error e => (false, "failed to process request: " ++ e)
  | Except.ok _ => (true, "")

/-- Request payload of `v1.http_redirect_rule.upsert`
(`HTTPRedirectRuleUpsertV1`). -/
structure HTTPRedirectRuleUpsertV1 where
  requestID : String
  requestedAt : Nat
  priority : Int
  bindIP : String
  port : Int
  isTLS : Bool
  domain : String
  routePrefix : String
  isHttpsRedirect : Bool
  schemeRedirect : String
  hostRedirect : String
  pathRedirect : String
  statusCode : Int
deriving DecidableEq

/-- Embeds the `Process` method of `HTTPRedirectRuleUpsertV1` (handler.go):
validate the bind ip, the port range and — through `validateDomain`, not
`IsValidDomain` — the domain; default the route prefix to `/`; upsert the
listener with protocol `http` and the requested TLS flag; then upsert the
redirect rule. The result is the Go `(rule, error)` value together with
the listener and redirect-rule tables after the call. -/
def HTTPRedirectRuleUpsertV1.Process (r : HTTPRedirectRuleUpsertV1)
    (listeners : List Listener) (rules : List HTTPRedirectRule) :
    Except String HTTPRedirectRule × List Listener × List HTTPRedirectRule :=
  if r.bindIP ≠ "0.0.0.0" then
    (Except.error "currently only 0.0.0.0 is supported for bind_ip", listeners, rules)
  else if r.port ≤ 0 ∨ r.port > 65535 then
    (Except.error "port is required and must be between 1 and 65535", listeners, rules)
  else
    match validateDomain r.domain with
    | Except.error e => (Except.error ("invalid domain: " ++ e), listeners, rules)
    | Except.ok _ =>
      let routePrefix := if r.routePrefix = "" then "/" else r.routePrefix
      match upsertListener listeners r.bindIP r.port ProtocolType.http r.isTLS with
      | (Except.error e, listeners2) =>
        (Except.error ("failed to upsert listener: " ++ e), listeners2, rules)
      | (Except.ok listener, listeners2) =>
        let result := upsertHTTPRedirectRule rules listener.id r.domain routePrefix
          r.isHttpsRedirect r.schemeRedirect r.hostRedirect r.pathRedirect
          r.statusCode r.priority
        (Except.ok result.1, listeners2, result.2)

/-- Embeds the pending-reply fetch of `Manager.SendResponsesToQueue`
(manager): the GORM chain is
`ReadOnlyDB.Where("processed = ? AND replied = ?", true, false).Find(&messages).Limit(200)`.
`Find` executes the query at its call with only the `Where` condition
attached; the `Limit` call sits after `Find` and therefore configures no
executed statement, so the fetch carries no LIMIT clause at all and
returns every matching row. -/
def fetchPendingReplies (msgs : List Message) : List Message :=
  msgs.filter (fun m => m.processed && !m.replied)

/-! Concrete rows and requests used by the counterexamples and witnesses. -/

/-- Plain HTTP listener on 0.0.0.0:80. -/
def exListener80 : Listener :=
  { id := "0.0.0.0:80", protocol := .http, ip := "0.0.0.0", port := 80, isTLS := false }

/-- Static single-host backend row. -/
def exBackend1 : Backend :=
  { id := "uuid-1", resolverType := .static, dnsResolver := "",
    hostsText := "[\"10.0.0.1\"]", port := 8080, isTLS := false, sniDomain := "" }

/-- The one ingress rule referencing `exListener80` and `exBackend1`. -/
def exIngressRule1 : IngressRule :=
  { id := getIngressRuleID .http "0.0.0.0:80" "example.com" "/",
    priority := 0, listenerID := "0.0.0.0:80", backendID := "uuid-1",
    domain := "example.com", routePrefix := "/", allowedCIDRs := [], deniedCIDRs := [] }

/-- Configuration holding exactly that one ingress rule. -/
def exConfigWithRule : ConfigState :=
  { listeners := [exListener80], backends := [exBackend1],
    ingressRules := [exIngressRule1], httpRedirectRules := [] }

/-- The same configuration after `deleteIngressRule` removed the only rule. -/
def exConfigAfterDelete : ConfigState :=
  { listeners := [exListener80], backends := [exBackend1],
    ingressRules := deleteIngressRule exConfigWithRule.ingressRules .http
      "0.0.0.0:80" "example.com" "/",
    httpRedirectRules := [] }

/-- A well-formed TLS certificate upsert request. -/
def exTLSReq : TLSCertificateUpsertV1 :=
  { requestID := "r1", requestedAt := 1, isWildcard := false,
    domain := "example.com", cert := "CERT", key := "KEY" }

/-- The row the TLS upsert of `exTLSReq` builds (expiry instant 100). -/
def exTLSRecord : TLSCertificate :=
  { id := "example.com", domain := "example.com", isWildcard := false,
    cert := "CERT\n", key := "KEY\n", expiresAt := 100 }

/-- A redirect upsert request whose domain is a wildcard. -/
def exRedirectReqWildcard : HTTPRedirectRuleUpsertV1 :=
  { requestID := "r2", requestedAt := 1, priority := 0, bindIP := "0.0.0.0",
    port := 80, isTLS := false, domain := "*.example.com", routePrefix := "/",
    isHttpsRedirect := true, schemeRedirect := "", hostRedirect := "",
    pathRedirect := "", statusCode := 0 }

/-- A processed, not yet replied message row. -/
def exPendingMessage : Message :=
  { id := 1, event := "v1.tls_certificate.upsert", requestID := "r",
    requestPayload := "{}", responsePayload := "{}", errorMessage := "",
    success := true, processed := true, replied := false,
    requestedAt := some 1, queuedAt := some 2, processedAt := some 3 }

/-- Listener table holding only `exListener80`. -/
def exListenerStore : List Listener := [exListener80]

/-! Helper lemmas about the string order and the sorting utilities. -/

theorem strLtData_asymm : ∀ (x y : List Char),
    strLtData x y = true → strLtData y x = false
  | [], [] => by simp [strLtData]
  | [], _ :: _ => by simp [strLtData]
  | _ :: _, [] => by simp [strLtData]
  | a :: as, b :: bs => by
    by_cases h1 : a.toNat < b.toNat
    · have h2 : ¬ b.toNat < a.toNat := by omega
      simp [strLtData, h1, h2]
    · by_cases h2 : b.toNat < a.toNat
      · simp [strLtData, h1, h2]
      · simp [strLtData, h1, h2]
        exact strLtData_asymm as bs

theorem strLtData_trans : ∀ (x y z : List Char),
    strLtData x y = true → strLtData y z = true → strLtData x z = true
  | [], [], _ => by intro h _; simp [strLtData] at h
  | _ :: _, [], _ => by intro h _; simp [strLtData] at h
  | _, b :: bs, [] => by intro _ h; simp [strLtData] at h
  | [], b :: bs, c :: cs => by intro _ _; simp [strLtData]
  | a :: as, b :: bs, c :: cs => by
    intro h1 h2
    by_cases hab : a.toNat < b.toNat
    · by_cases hbc : b.toNat < c.toNat
      · have hac : a.toNat < c.toNat := by omega
        simp [strLtData, hac]
      · by_cases hcb : c.toNat < b.toNat
        · simp [strLtData, hbc, hcb] at h2
        · have hbceq : b.toNat = c.toNat := by omega
          have hac : a.toNat < c.toNat := by omega
          simp [strLtData, hac]
    · by_cases hba : b.toNat < a.toNat
      · simp [strLtData, hab, hba] at h1
      · have habeq : a.toNat = b.toNat := by omega
        simp [strLtData, hab, hba] at h1
        by_cases hbc : b.toNat < c.toNat
        · have hac : a.toNat < c.toNat := by omega
          simp [strLtData, hac]
        · by_cases hcb : c.toNat < b.toNat
          · simp [strLtData, hbc, hcb] at h2
          · simp [strLtData, hbc, hcb] at h2
            have hac : ¬ a.toNat < c.toNat := by omega
            have hca : ¬ c.toNat < a.toNat := by omega
            simp [strLtData, hac, hca]
            exact strLtData_trans as bs cs h1 h2

theorem strLtData_conn : ∀ (x y : List Char),
    strLtData x y = false → strLtData y x = false → x = y
  | [], [] => by intro _ _; rfl
  | [], _ :: _ => by intro h _; simp [strLtData] at h
  | _ :: _, [] => by intro _ h; simp [strLtData] at h
  | a :: as, b :: bs => by
    intro h1 h2
    by_cases hab : a.toNat < b.toNat
    · simp [strLtData, hab] at h1
    · by_cases hba : b.toNat < a.toNat
      · simp [strLtData, hba] at h2
      · simp [strLtData, hab, hba] at h1 h2
        have htn : a.toNat = b.toNat := by omega
        have hchar : a = b := Char.ext (UInt32.ext htn)
        rw [hchar, strLtData_conn as bs h1 h2]

theorem string_eq_of_data_eq {a b : String} (h : a.data = b.data) : a = b := by
  cases a; cases b; simp_all

theorem strLe_total (a b : String) : strLe a b ∨ strLe b a := by
  unfold strLe strLeGo
  by_cases h : strLtData b.data a.data = true
  · right
    simp [strLtData_asymm _ _ h]
  · left
    simp [Bool.not_eq_true] at h
    simp [h]

theorem strLe_trans (a b c : String) : strLe a b → strLe b c → strLe a c := by
  unfold strLe strLeGo
  intro h1 h2
  simp only [Bool.not_eq_true'] at h1 h2 ⊢
  by_cases hca : strLtData c.data a.data = true
  · by_cases hab : strLtData a.data b.data = true
    · have := strLtData_trans _ _ _ hca hab
      rw [this] at h2
      cases h2
    · simp only [Bool.not_eq_true] at hab
      have : a.data = b.data := strLtData_conn _ _ hab h1
      rw [this] at hca
      rw [hca] at h2
      cases h2
  · simp only [Bool.not_eq_true] at hca
    exact hca

theorem strLe_antisymm (a b : String) : strLe a b → strLe b a → a = b := by
  unfold strLe strLeGo
  intro h1 h2
  simp only [Bool.not_eq_true'] at h1 h2
  exact string_eq_of_data_eq (strLtData_conn _ _ h2 h1)

theorem sortStrings_perm (l : List String) : (sortStrings l).Perm l :=
  List.perm_insertionSort strLe l

theorem sortStrings_sorted (l : List String) : List.Sorted strLe (sortStrings l) :=
  @List.sorted_insertionSort String strLe _ ⟨strLe_total⟩ ⟨strLe_trans⟩ l

theorem sortStrings_eq_of_perm {l₁ l₂ : List String} (h : l₁.Perm l₂) :
    sortStrings l₁ = sortStrings l₂ :=
  @List.eq_of_perm_of_sorted String strLe ⟨strLe_antisymm⟩ _ _
    (((sortStrings_perm l₁).trans h).trans (sortStrings_perm l₂).symm)
    (sortStrings_sorted l₁) (sortStrings_sorted l₂)

theorem mem_compactAdj : ∀ (l : List String) (x : String),
    x ∈ compactAdj l ↔ x ∈ l
  | [], x => Iff.rfl
  | [a], x => by simp [compactAdj]
  | a :: b :: rest, x => by
    have ih := mem_compactAdj (b :: rest) x
    by_cases h : a = b
    · rw [compactAdj, if_pos h, ih]
      subst h
      simp [List.mem_cons]
    · rw [compactAdj, if_neg h]
      simp [List.mem_cons, ih]

theorem mem_uniqueSortedStrings (s : List String) (x : String) :
    x ∈ uniqueSortedStrings s ↔ x ∈ s := by
  unfold uniqueSortedStrings
  rw [mem_compactAdj]
  exact (sortStrings_perm s).mem_iff

theorem uniqueSortedStrings_ne_nil {s : List String} (h : s ≠ []) :
    uniqueSortedStrings s ≠ [] := by
  obtain ⟨x, hx⟩ := List.exists_mem_of_ne_nil s h
  exact List.ne_nil_of_mem ((mem_uniqueSortedStrings s x).mpr hx)

theorem stringListValue_perm {h₁ h₂ : List String} (hp : h₁.Perm h₂) :
    stringListValue h₁ = stringListValue h₂ := by
  unfold stringListValue
  have hlen := hp.length_eq
  by_cases h : h₁.length = 0
  · rw [if_pos h, if_pos (by omega)]
  · rw [if_neg h, if_neg (by omega), sortStrings_eq_of_perm hp]

theorem isSortedHostsText_stringListValue (hosts : List String) :
    IsSortedHostsText (stringListValue hosts) := by
  unfold stringListValue IsSortedHostsText
  by_cases h : hosts.length = 0
  · rw [if_pos h]
    exact ⟨[], List.sorted_nil, rfl⟩
  · rw [if_neg h]
    exact ⟨sortStrings hosts, sortStrings_sorted hosts, rfl⟩

theorem backendMatches_iff (b : Backend) (resolverType : BackendResolverType)
    (dnsResolver hostsValue : String) (port : Int) (isTLS : Bool) (sniDomain : String) :
    backendMatches b resolverType dnsResolver hostsValue port isTLS sniDomain = true
      ↔ backendTuple b = (resolverType, dnsResolver, hostsValue, port, isTLS, sniDomain) := by
  simp [backendMatches, backendTuple, Prod.ext_iff, and_assoc]

/-! Claim theorems. -/

/-- Claim C2: the claim states that every stored HTTPRedirectRule id equals
"http:" + listener_id + ":" + domain + ":" + route_prefix + ":" + kind with
kind "https" or "other". On the code this is false: the fmt format string
ends in the %d verb applied to the string redirectType, so the id ends in
the bad-verb rendering %!d(string=https) or %!d(string=other) instead of
the bare kind. This theorem evaluates `getHTTPRedirectRuleID` at the
failing input. -/
theorem c2_http_redirect_rule_id_malformed :
    getHTTPRedirectRuleID "0.0.0.0:80" "example.com" "/" true
      = "http:0.0.0.0:80:example.com:/:%!d(string=https)"
    ∧ getHTTPRedirectRuleID "0.0.0.0:80" "example.com" "/" true
      ≠ "http:0.0.0.0:80:example.com:/:https"
    ∧ getHTTPRedirectRuleID "0.0.0.0:80" "example.com" "/" false
      = "http:0.0.0.0:80:example.com:/:%!d(string=other)" := by
  decide

/-- Claim C3: the claim states that a failing datastore write inside the
TLS-certificate upsert surfaces as a handler error, so the message records
success=false. On the code this is false: the write error assigned to err
by db.Save or db.Create is immediately rebound by the json.Marshal line
and never checked. Evaluated at a valid request with a failing write: the
handler returns the marshalled row with no error — while the store stays
empty — and processMessage therefore records success=true with an empty
error message. -/
theorem c3_tls_store_write_failure_reports_success :
    TLSCertificateUpsertV1.Process exTLSReq [] none (Except.ok 100) (some "disk I/O error")
      = (Except.ok (tlsCertificateJSON exTLSRecord), [])
    ∧ messageOutcomeOfProcess
        (TLSCertificateUpsertV1.Process exTLSReq [] none (Except.ok 100)
          (some "disk I/O error")).1
      = (true, "") := by
  decide

/-- Claim C4: the claim states that the domain validation used by the
ingress-rule and redirect-rule handlers accepts "*" and "*.<rest>". On the
code this is false: the handlers call the inner `validateDomain`, whose
idna lookup step rejects the star rune; the wildcard branch lives only in
`IsValidDomain`, which no handler calls. Evaluated at the wildcard inputs:
the redirect upsert fails with an invalid-domain error, `validateDomain`
rejects both wildcard forms, and `IsValidDomain` accepts them. -/
theorem c4_wildcard_domain_rejected_by_handler_validation :
    (HTTPRedirectRuleUpsertV1.Process exRedirectReqWildcard [] []).1
      = Except.error ("invalid domain: " ++ ("invalid IDN: " ++ "idna: disallowed rune"))
    ∧ (validateDomain "*").isOk = false
    ∧ (validateDomain "*.example.com").isOk = false
    ∧ IsValidDomain "*" = Except.ok ()
    ∧ IsValidDomain "*.example.com" = Except.ok () := by
  decide

/-- Claim C5: the claim states that the reply publisher fetches at most 200
pending messages per iteration. On the code this is false: the Limit call
is chained after Find, which has already executed the query, so the fetch
is unbounded. Evaluated at a store of 201 pending messages: all 201 are
fetched. -/
theorem c5_reply_fetch_unlimited :
    (fetchPendingReplies (List.replicate 201 exPendingMessage)).length = 201
    ∧ 200 < (fetchPendingReplies (List.replicate 201 exPendingMessage)).length := by
  have h : (fetchPendingReplies (List.replicate 201 exPendingMessage)).length = 201 := by
    rw [fetchPendingReplies, List.filter_replicate, if_pos (by decide), List.length_replicate]
  exact ⟨h, by rw [h]; omega⟩

/-- Claim C6: the claim states that re-upserting an existing HTTP redirect
rule stores all fields of the later request, in particular a changed
priority. On the code this is false: the update branch of
`upsertHTTPRedirectRule` assigns the redirect fields and the status code
but never the priority. Evaluated at two successive upserts of the same
rule id with priorities 5 and then 9: the other fields of the second
request are stored, the priority stays 5. -/
theorem c6_redirect_reupsert_keeps_old_priority :
    (upsertHTTPRedirectRule
        (upsertHTTPRedirectRule [] "0.0.0.0:80" "example.com" "/" false "" "" "" 301 5).2
        "0.0.0.0:80" "example.com" "/" false "https" "example.org" "" 302 9).1.priority = 5
    ∧ (upsertHTTPRedirectRule
        (upsertHTTPRedirectRule [] "0.0.0.0:80" "example.com" "/" false "" "" "" 301 5).2
        "0.0.0.0:80" "example.com" "/" false "https" "example.org" "" 302 9).1.priority ≠ 9
    ∧ (upsertHTTPRedirectRule
        (upsertHTTPRedirectRule [] "0.0.0.0:80" "example.com" "/" false "" "" "" 301 5).2
        "0.0.0.0:80" "example.com" "/" false "https" "example.org" "" 302 9).1.statusCode = 302
    ∧ (upsertHTTPRedirectRule
        (upsertHTTPRedirectRule [] "0.0.0.0:80" "example.com" "/" false "" "" "" 301 5).2
        "0.0.0.0:80" "example.com" "/" false "https" "example.org" "" 302 9).1.schemeRedirect
        = "https"
    ∧ (upsertHTTPRedirectRule
        (upsertHTTPRedirectRule [] "0.0.0.0:80" "example.com" "/" false "" "" "" 301 5).2
        "0.0.0.0:80" "example.com" "/" false "https" "example.org" "" 302 9).2
      = [(upsertHTTPRedirectRule
          (upsertHTTPRedirectRule [] "0.0.0.0:80" "example.com" "/" false "" "" "" 301 5).2
          "0.0.0.0:80" "example.com" "/" false "https" "example.org" "" 302 9).1] := by
  decide

/-- Claim C7 counterexample: the claim states every stored redirect rule
has status_code in the set 301, 302, 307, 308. On the code only the
zero-to-301 default exists and no membership validation: a request with
status_code 999 is stored verbatim. -/
theorem c7_status_code_unvalidated_counterexample :
    (upsertHTTPRedirectRule [] "0.0.0.0:80" "example.com" "/" false "" "" "" 999 0).1.statusCode
      = 999
    ∧ (upsertHTTPRedirectRule [] "0.0.0.0:80" "example.com" "/" false "" "" "" 999 0).1.statusCode
      ∉ ([301, 302, 307, 308] : List Int)
    ∧ (upsertHTTPRedirectRule [] "0.0.0.0:80" "example.com" "/" false "" "" "" 999 0).1
      ∈ (upsertHTTPRedirectRule [] "0.0.0.0:80" "example.com" "/" false "" "" "" 999 0).2 := by
  decide

/-- Claim C7 (amended): every HTTPRedirectRule row stored by the redirect
upsert carries exactly the status code of the request, with a zero status
code defaulting to 301; no validation restricts the value to the set 301,
302, 307, 308. The stored row is the returned rule and it is a member of
the resulting table. -/
theorem c7_status_code_stored_amended (db : List HTTPRedirectRule)
    (listenerID domain routePrefix : String) (isHttpsRedirect : Bool)
    (schemeRedirect hostRedirect pathRedirect : String) (statusCode priority : Int) :
    ((upsertHTTPRedirectRule db listenerID domain routePrefix isHttpsRedirect
        schemeRedirect hostRedirect pathRedirect statusCode priority).1.statusCode
      = if statusCode = 0 then 301 else statusCode)
    ∧ (upsertHTTPRedirectRule db listenerID domain routePrefix isHttpsRedirect
        schemeRedirect hostRedirect pathRedirect statusCode priority).1
      ∈ (upsertHTTPRedirectRule db listenerID domain routePrefix isHttpsRedirect
        schemeRedirect hostRedirect pathRedirect statusCode priority).2 := by
  cases hfind : findHTTPRedirectRule db listenerID domain routePrefix isHttpsRedirect with
  | none =>
    constructor
    · simp [upsertHTTPRedirectRule, hfind]
    · simp [upsertHTTPRedirectRule, hfind]
  | some r =>
    have hr : r ∈ db := by
      have h2 := hfind
      unfold findHTTPRedirectRule at h2
      exact List.mem_of_find?_eq_some h2
    constructor
    · simp [upsertHTTPRedirectRule, hfind]
    · simp only [upsertHTTPRedirectRule, hfind]
      refine List.mem_map.mpr ⟨r, hr, ?_⟩
      simp

/-- Claim C1 counterexample: the claim states that after orphan GC every
listener is referenced by a rule and every backend by an ingress rule, and
in particular that deleting the only ingress rule removes the listener and
backend it referenced. On the code this is false: after the delete the
reference sets are empty, the len>0 guards of the GC skip both deletions,
and the orphaned listener and backend rows survive the commit. -/
theorem c1_orphan_gc_counterexample :
    cleanupUnusedBackendsAndListeners exConfigAfterDelete = exConfigAfterDelete
    ∧ exConfigAfterDelete.ingressRules = []
    ∧ exListener80 ∈ (cleanupUnusedBackendsAndListeners exConfigAfterDelete).listeners
    ∧ ¬ ListenerReferenced (cleanupUnusedBackendsAndListeners exConfigAfterDelete) exListener80
    ∧ exBackend1 ∈ (cleanupUnusedBackendsAndListeners exConfigAfterDelete).backends
    ∧ ¬ BackendReferenced (cleanupUnusedBackendsAndListeners exConfigAfterDelete) exBackend1 := by
  decide

/-- Claim C1 (amended): after orphan GC inside the batch transaction, every
surviving listener is referenced by an ingress or redirect rule provided at
least one such rule exists, and every surviving backend is referenced by an
ingress rule provided at least one ingress rule exists. When the reference
set is empty — as after deleting the only rule — the len>0 guards of the GC
deliberately delete nothing, so the previously referenced listener and
backend are removed in the same commit only while other rules remain. -/
theorem c1_orphan_gc_amended (st : ConfigState) :
    (st.ingressRules ≠ [] ∨ st.httpRedirectRules ≠ [] →
      ∀ l ∈ (cleanupUnusedBackendsAndListeners st).listeners,
        ListenerReferenced (cleanupUnusedBackendsAndListeners st) l)
    ∧ (st.ingressRules ≠ [] →
      ∀ b ∈ (cleanupUnusedBackendsAndListeners st).backends,
        BackendReferenced (cleanupUnusedBackendsAndListeners st) b) := by
  constructor
  · intro hne l hl
    have hids : st.ingressRules.map (fun r => r.listenerID)
        ++ st.httpRedirectRules.map (fun r => r.listenerID) ≠ [] := by
      intro hcontra
      rcases List.append_eq_nil.mp hcontra with ⟨hi, hh⟩
      rcases hne with hne | hne
      · exact hne (List.map_eq_nil_iff.mp hi)
      · exact hne (List.map_eq_nil_iff.mp hh)
    have hlen : 0 < (uniqueSortedStrings
        (st.ingressRules.map (fun r => r.listenerID)
          ++ st.httpRedirectRules.map (fun r => r.listenerID))).length :=
      List.length_pos.mpr (uniqueSortedStrings_ne_nil hids)
    unfold cleanupUnusedBackendsAndListeners at hl
    simp only [if_pos hlen, List.mem_filter, decide_eq_true_eq] at hl
    have hmem : l.id ∈ st.ingressRules.map (fun r => r.listenerID)
        ++ st.httpRedirectRules.map (fun r => r.listenerID) :=
      (mem_uniqueSortedStrings _ _).mp hl.2
    rcases List.mem_append.mp hmem with hmem | hmem
    · rcases List.mem_map.mp hmem with ⟨r, hr, hid⟩
      exact Or.inl ⟨r, hr, hid⟩
    · rcases List.mem_map.mp hmem with ⟨r, hr, hid⟩
      exact Or.inr ⟨r, hr, hid⟩
  · intro hne b hb
    have hids : st.ingressRules.map (fun r => r.backendID) ≠ [] := by
      intro hcontra
      exact hne (List.map_eq_nil_iff.mp hcontra)
    have hlen : 0 < (uniqueSortedStrings
        (st.ingressRules.map (fun r => r.backendID))).length :=
      List.length_pos.mpr (uniqueSortedStrings_ne_nil hids)
    unfold cleanupUnusedBackendsAndListeners at hb
    simp only [if_pos hlen, List.mem_filter, decide_eq_true_eq] at hb
    have hmem : b.id ∈ st.ingressRules.map (fun r => r.backendID) :=
      (mem_uniqueSortedStrings _ _).mp hb.2
    rcases List.mem_map.mp hmem with ⟨r, hr, hid⟩
    exact ⟨r, hr, hid⟩

/-- Claim C1 witness: in the configuration still holding its one ingress
rule, the listener surviving GC is referenced. -/
theorem c1_orphan_gc_amended_witness :
    ListenerReferenced (cleanupUnusedBackendsAndListeners exConfigWithRule) exListener80 :=
  (c1_orphan_gc_amended exConfigWithRule).1 (Or.inl (by decide)) exListener80 (by decide)

/-- Claim C8: the protocol and TLS mode of an existing listener are sticky.
Any upsert that targets an existing listener id with a different protocol
or a different TLS flag returns an error whose text closes with the
instruction to remove the existing ingress / redirect rules, and it leaves
the listener table unchanged; since every mutation of the listener table
goes through `upsertListener`, the fields never change under any sequence
of operations. -/
theorem c8_listener_protocol_tls_sticky (db : List Listener) (l : Listener)
    (bindIP : String) (port : Int) (protocol : ProtocolType) (isTLS : Bool)
    (hfound : findListenerByID db (getListenerID bindIP port) = some l)
    (hconflict : l.protocol ≠ protocol ∨ l.isTLS ≠ isTLS) :
    ∃ e, (upsertListener db bindIP port protocol isTLS).1 = Except.error e
      ∧ removalInstruction.data.IsSuffix e.data
      ∧ (upsertListener db bindIP port protocol isTLS).2 = db := by
  by_cases hp : l.protocol = protocol
  · have ht : l.isTLS ≠ isTLS := by
      rcases hconflict with h | h
      · exact absurd hp h
      · exact h
    by_cases htls : l.isTLS = true
    · simp only [upsertListener, hfound]
      rw [if_neg (fun hne => hne hp), if_pos ht, if_pos htls]
      exact ⟨_, rfl, ⟨_, rfl⟩, rfl⟩
    · simp only [upsertListener, hfound]
      rw [if_neg (fun hne => hne hp), if_pos ht, if_neg htls]
      exact ⟨_, rfl, ⟨_, rfl⟩, rfl⟩
  · simp only [upsertListener, hfound]
    rw [if_pos hp]
    exact ⟨_, rfl, ⟨_, rfl⟩, rfl⟩

/-- Claim C8 witness: an upsert requesting tcp on the existing http
listener at 0.0.0.0:80 is refused and mutates nothing. -/
theorem c8_listener_protocol_tls_sticky_witness :
    ∃ e, (upsertListener exListenerStore "0.0.0.0" 80 ProtocolType.tcp false).1
        = Except.error e
      ∧ removalInstruction.data.IsSuffix e.data
      ∧ (upsertListener exListenerStore "0.0.0.0" 80 ProtocolType.tcp false).2
        = exListenerStore :=
  c8_listener_protocol_tls_sticky exListenerStore exListener80 "0.0.0.0" 80
    ProtocolType.tcp false (by decide) (Or.inl (by decide))

/-- Claim C9: backend rows store their hosts as a lexicographically sorted
JSON array and are structurally deduplicated. Under the store invariant,
one upsert preserves the invariant, and a second upsert whose hosts differ
only in order (a permutation) returns the very row of the first upsert and
leaves the table untouched. -/
theorem c9_backend_sorted_dedup (db : List Backend)
    (resolverType : BackendResolverType) (dnsResolver : String)
    (h₁ h₂ : List String) (port : Int) (isTLS : Bool) (sniDomain : String)
    (freshID₁ freshID₂ : String)
    (hperm : h₁.Perm h₂) (hinv : BackendStoreOK db) :
    BackendStoreOK
      (upsertBackend db resolverType dnsResolver h₁ port isTLS sniDomain freshID₁).2
    ∧ upsertBackend
        (upsertBackend db resolverType dnsResolver h₁ port isTLS sniDomain freshID₁).2
        resolverType dnsResolver h₂ port isTLS sniDomain freshID₂
      = ((upsertBackend db resolverType dnsResolver h₁ port isTLS sniDomain freshID₁).1,
         (upsertBackend db resolverType dnsResolver h₁ port isTLS sniDomain freshID₁).2) := by
  have hval : stringListValue h₂ = stringListValue h₁ := (stringListValue_perm hperm).symm
  have hsame : ∀ (d : List Backend),
      findBackend d resolverType dnsResolver h₂ port isTLS sniDomain
        = findBackend d resolverType dnsResolver h₁ port isTLS sniDomain := by
    intro d
    unfold findBackend
    rw [hval]
  cases hfind : findBackend db resolverType dnsResolver h₁ port isTLS sniDomain with
  | some b =>
    constructor
    · simp only [upsertBackend, hfind]
      exact hinv
    · simp only [upsertBackend, hfind, hsame db]
  | none =>
    have hnomatch := List.find?_eq_none.mp (by
      have h2 := hfind
      unfold findBackend at h2
      exact h2)
    constructor
    · simp only [upsertBackend, hfind]
      constructor
      · intro x hx
        rcases List.mem_append.mp hx with hx | hx
        · exact hinv.1 x hx
        · rw [List.mem_singleton.mp hx]
          exact isSortedHostsText_stringListValue h₁
      · refine List.pairwise_append.mpr ⟨hinv.2, List.pairwise_singleton _ _, ?_⟩
        intro a ha x hx
        rw [List.mem_singleton.mp hx]
        intro hcontra
        apply hnomatch a ha
        rw [backendMatches_iff]
        rw [hcontra]
        rfl
    · simp only [upsertBackend, hfind, hsame]
      have happ : findBackend (db ++ [⟨freshID₁, resolverType, dnsResolver, stringListValue h₁, port, isTLS, sniDomain⟩]) resolverType dnsResolver h₁ port isTLS sniDomain = some ⟨freshID₁, resolverType, dnsResolver, stringListValue h₁, port, isTLS, sniDomain⟩ := by
        unfold findBackend
        rw [List.find?_append]
        have h2 : findBackend db resolverType dnsResolver h₁ port isTLS sniDomain = none :=
          hfind
        unfold findBackend at h2
        rw [h2]
        simp [List.find?, backendMatches]
      simp only [happ]

/-- Claim C9 witness: on the empty table, upserting hosts ["b", "a"] and
then hosts ["a", "b"] keeps the invariant and resolves to the single row
created by the first upsert. -/
theorem c9_backend_sorted_dedup_witness :
    BackendStoreOK
      (upsertBackend [] BackendResolverType.static "" ["b", "a"] 8080 false "" "id1").2
    ∧ upsertBackend
        (upsertBackend [] BackendResolverType.static "" ["b", "a"] 8080 false "" "id1").2
        BackendResolverType.static "" ["a", "b"] 8080 false "" "id2"
      = ((upsertBackend [] BackendResolverType.static "" ["b", "a"] 8080 false "" "id1").1,
         (upsertBackend [] BackendResolverType.static "" ["b", "a"] 8080 false "" "id1").2) :=
  c9_backend_sorted_dedup [] BackendResolverType.static "" ["b", "a"] ["a", "b"]
    8080 false "" "id1" "id2" (by decide)
    ⟨fun b hb => absurd hb (List.not_mem_nil b), List.Pairwise.nil⟩

/-- Claim C10: the JSON the TLS upsert handler returns as reply data never
contains a "key" field: the Key field of the TLSCertificate struct carries
the json:"-" tag, so the private key is persisted but not echoed on the
reply stream. -/
theorem c10_tls_reply_omits_private_key (r : TLSCertificateUpsertV1)
    (db : List TLSCertificate) (validateErr : Option String)
    (expiry : Except String Nat) (writeErr : Option String)
    (fields : List (String × Jval)) (db2 : List TLSCertificate)
    (h : TLSCertificateUpsertV1.Process r db validateErr expiry writeErr
      = (Except.ok fields, db2)) :
    "key" ∉ fields.map Prod.fst := by
  unfold TLSCertificateUpsertV1.Process at h
  split at h
  · exact absurd (congrArg Prod.fst h) (by simp)
  · split at h
    · exact absurd (congrArg Prod.fst h) (by simp)
    · split at h
      · exact absurd (congrArg Prod.fst h) (by simp)
      · split at h
        · exact absurd (congrArg Prod.fst h) (by simp)
        · have hf : tlsCertificateJSON _ = fields := Except.ok.inj (congrArg Prod.fst h)
          rw [← hf]
          simp [tlsCertificateJSON]

/-- Claim C10 witness: the reply fields of a successful concrete upsert
carry no "key" entry. -/
theorem c10_tls_reply_omits_private_key_witness :
    "key" ∉ (tlsCertificateJSON exTLSRecord).map Prod.fst :=
  c10_tls_reply_omits_private_key exTLSReq [] none (Except.ok 100) none
    (tlsCertificateJSON exTLSRecord) [exTLSRecord] (by decide)
